import Mathlib

/-!
Shallow embedding of `src/main.py` (Bogue Chitto crest analysis).

Conventions of the embedding:
* Python floats are modelled as exact rationals (ℚ).
* Timestamps are modelled as rationals (seconds); hourly buckets are keyed
  by their hour number (an integer, `Int.floor (t / 3600)`), matching
  wall-clock-aligned `resample("1H")` buckets.
* A pandas cell that may be NA is `Option (List Char)`; `none` is NaN.
* Python exceptions are modelled with `Except`: a function that can raise
  returns `Except ε α`, and a `try/except` block is a `match` on that value.
-/

namespace BogueChitto

instance {ε α : Type} [DecidableEq ε] [DecidableEq α] : DecidableEq (Except ε α)
  | .error a, .error b => decidable_of_iff (a = b) (by simp)
  | .error _, .ok _ => .isFalse (by intro h; cases h)
  | .ok _, .error _ => .isFalse (by intro h; cases h)
  | .ok a, .ok b => decidable_of_iff (a = b) (by simp)

/-! ### Configuration constants (src/main.py lines 18-20) -/

def REFERENCE_STAGE : ℚ := 15
def MIN_IV_YEAR : ℤ := 1990

/-! ### Crest CSV parsing (src/main.py, `parse_crest_csv`, lines 27-62)

A CSV row has four positional fields; only `height_str` and `date_str`
are consumed (`rank` and `empty` never are), so a row is modelled by
those two cells.  `pd.read_csv` leaves an empty cell as NaN, modelled by
`none`; a non-empty cell is its text. -/

structure CsvRow where
  height_str : Option (List Char)
  date_str : Option (List Char)
deriving Repr, DecidableEq

structure Date where
  year : ℤ
  month : ℕ
  day : ℕ
deriving Repr, DecidableEq

structure CrestRecord where
  crest_height : ℚ
  crest_date : Date
deriving Repr, DecidableEq

/-- Character class of the regex `[\d\.]+`: a decimal digit or a dot. -/
def isNumChar (c : Char) : Bool := c.isDigit || c = '.'

/-- `re.search(r"[\d\.]+", s)`: the leftmost maximal run of digits/dots. -/
def firstNumToken : List Char → Option (List Char)
  | [] => none
  | c :: rest =>
    if isNumChar c then some (c :: rest.takeWhile isNumChar)
    else firstNumToken rest

/-- Numeric value of a digit string (most-significant first). -/
def natOfDigits (ds : List Char) : ℕ :=
  ds.foldl (fun acc c => 10 * acc + (c.toNat - '0'.toNat)) 0

/-- Python `float(tok)` for a token drawn from the `[\d\.]+` character
class: it succeeds iff the token has at least one digit and at most one
dot (`float(".")` and `float("1.2.3")` raise `ValueError`), and its value
is the usual decimal reading. -/
def pyFloat? (tok : List Char) : Option ℚ :=
  if (tok.filter Char.isDigit).length = 0 then none
  else if 1 < (tok.filter (fun c => c = '.')).length then none
  else
    let intPart := tok.takeWhile Char.isDigit
    let rest := tok.dropWhile Char.isDigit
    let fracPart := rest.drop 1
    some ((natOfDigits intPart : ℚ) +
      (natOfDigits fracPart : ℚ) / (10 : ℚ) ^ fracPart.length)

/-- `extract_height` (lines 43-47).  NA cell ↦ no height; no regex match
↦ no height; a matched token is passed to `float`, which can raise
`ValueError` (modelled by `Except.error`). -/
def extract_height (cell : Option (List Char)) : Except Unit (Option ℚ) :=
  match cell with
  | none => .ok none
  | some s =>
    match firstNumToken s with
    | none => .ok none
    | some tok =>
      match pyFloat? tok with
      | some q => .ok (some q)
      | none => .error ()

/-- Gregorian leap-year rule, as used by `datetime`. -/
def isLeap (y : ℤ) : Bool := (y % 4 = 0 && y % 100 ≠ 0) || y % 400 = 0

def daysInMonth (y : ℤ) (m : ℕ) : ℕ :=
  if m = 2 then (if isLeap y then 29 else 28)
  else if m = 4 || m = 6 || m = 9 || m = 11 then 30
  else 31

/-- `pd.to_datetime(_, format="%m-%d-%Y")` succeeds iff the fields form a
real calendar date that also fits in a nanosecond `Timestamp`
(midnight instants range over 1677-09-22 .. 2262-04-11). -/
def validTimestampDate (y : ℤ) (m d : ℕ) : Bool :=
  1 ≤ m && m ≤ 12 && 1 ≤ d && d ≤ daysInMonth y m &&
  (1678 ≤ y || (y = 1677 && (10 ≤ m || (m = 9 && 22 ≤ d)))) &&
  (y ≤ 2261 || (y = 2262 && (m < 4 || (m = 4 && d ≤ 11))))

/-- One attempt of the regex `\d{2}-\d{2}-\d{4}` at the head of `s`. -/
def dateShapeAt (s : List Char) : Option (ℕ × ℕ × ℤ) :=
  match s with
  | m1 :: m2 :: '-' :: d1 :: d2 :: '-' :: y1 :: y2 :: y3 :: y4 :: _ =>
    if m1.isDigit && m2.isDigit && d1.isDigit && d2.isDigit &&
       y1.isDigit && y2.isDigit && y3.isDigit && y4.isDigit then
      some (natOfDigits [m1, m2], natOfDigits [d1, d2],
        (natOfDigits [y1, y2, y3, y4] : ℤ))
    else none
  | _ => none

/-- `re.search(r"\d{2}-\d{2}-\d{4}", s)`: leftmost match. -/
def firstDateMatch : List Char → Option (ℕ × ℕ × ℤ)
  | [] => none
  | c :: rest =>
    match dateShapeAt (c :: rest) with
    | some r => some r
    | none => firstDateMatch rest

/-- `extract_date` (lines 50-56).  NA or no match ↦ no date; a matched
pattern is passed to `pd.to_datetime`, which raises on an invalid or
out-of-bounds date (modelled by `Except.error`). -/
def extract_date (cell : Option (List Char)) : Except Unit (Option Date) :=
  match cell with
  | none => .ok none
  | some s =>
    match firstDateMatch s with
    | none => .ok none
    | some (m, d, y) =>
      if validTimestampDate y m d then .ok (some ⟨y, m, d⟩)
      else .error ()

/-- `parse_crest_csv` (lines 27-62): apply `extract_height` to every row,
then `extract_date` to every row (either `apply` propagates a raised
exception), then `dropna(subset=["crest_height", "crest_date"])`. -/
def parse_crest_csv (rows : List CsvRow) : Except Unit (List CrestRecord) := do
  let heights ← rows.mapM (fun r => extract_height r.height_str)
  let dates ← rows.mapM (fun r => extract_date r.date_str)
  .ok ((heights.zip dates).filterMap fun hd =>
    match hd with
    | (some h, some d) => some ⟨h, d⟩
    | _ => none)

/-- The record one row contributes when neither of its extractions
raises: `some` record when both extractions match, `none` (silently
dropped) otherwise.  Used to state what `parse_crest_csv` returns. -/
def rowRecord? (r : CsvRow) : Option CrestRecord :=
  match extract_height r.height_str, extract_date r.date_str with
  | .ok (some h), .ok (some d) => some ⟨h, d⟩
  | _, _ => none

/-! ### USGS IV fetch (src/main.py, `fetch_usgs_iv`, lines 65-94)

JSON values; the service's ISO-8601 timestamp strings are abstracted to
numeric instants (seconds since an arbitrary epoch): a `dateTime` entry
that is not such an instant models an unparseable timestamp. -/

inductive Json where
  | null
  | bool (b : Bool)
  | num (q : ℚ)
  | str (s : List Char)
  | arr (elems : List Json)
  | obj (fields : List (String × Json))

/-- An HTTP response: status code, and `none` body when the body is not
well-formed JSON (`response.json()` then raises a decode error). -/
structure HttpResponse where
  status : ℕ
  body : Option Json

/-- Exceptions that can surface from a fetch attempt.  `httpError` is the
`requests.HTTPError` of `raise_for_status`; `jsonError` a JSON decode
failure; `shapeError` an `AttributeError`/`KeyError`/`IndexError`/
`TypeError`/`ValueError` while drilling into the payload; `network`
a transport failure (timeout, connection) before any response exists. -/
inductive FetchError where
  | httpError
  | jsonError
  | shapeError
  | network
deriving Repr, DecidableEq

/-- `response.raise_for_status()` raises `HTTPError` exactly for status
codes 400-599 (4xx client errors and 5xx server errors). -/
def raise_for_status (resp : HttpResponse) : Except FetchError Unit :=
  if 400 ≤ resp.status ∧ resp.status < 600 then .error .httpError else .ok ()

/-- Python `d.get(key, default)`: `AttributeError` on a non-dict. -/
def jsonGetD (j : Json) (key : String) (d : Json) : Except FetchError Json :=
  match j with
  | .obj fields => .ok ((fields.lookup key).getD d)
  | _ => .error .shapeError

/-- Python `d[key]` on the payload: `KeyError` when absent, type errors
on non-dicts. -/
def jsonGet (j : Json) (key : String) : Except FetchError Json :=
  match j with
  | .obj fields =>
    match fields.lookup key with
    | some v => .ok v
    | none => .error .shapeError
  | _ => .error .shapeError

/-- Python `x[0]`: `IndexError` on an empty list, type errors otherwise. -/
def index0 (j : Json) : Except FetchError Json :=
  match j with
  | .arr (x :: _) => .ok x
  | _ => .error .shapeError

/-- Python truthiness, for `if not ts_list`. -/
def isFalsy : Json → Bool
  | .null => true
  | .bool b => !b
  | .num q => q = 0
  | .str s => s.isEmpty
  | .arr l => l.isEmpty
  | .obj f => f.isEmpty

/-- `float(s)` on a free-form string (used by `pd.to_numeric`): optional
sign, then digits with at most one dot. -/
def pyFloatSigned? (s : List Char) : Option ℚ :=
  match s with
  | '-' :: rest => (pyFloat? rest).map (fun q => -q)
  | _ => pyFloat? s

/-- `pd.to_numeric(cell, errors="coerce")`: numbers pass through, numeric
strings are parsed, booleans become 0/1, everything else (including a
missing cell) coerces to NaN, i.e. `none`. -/
def coerceNum : Option Json → Option ℚ
  | some (.num q) => some q
  | some (.str s) => pyFloatSigned? s
  | some (.bool b) => some (if b then 1 else 0)
  | _ => none

/-- `pd.to_datetime` on a `dateTime` cell: an instant parses, a missing
or null cell becomes NaT (`none`), anything else raises. -/
def parseInstant : Option Json → Except FetchError (Option ℚ)
  | some (.num q) => .ok (some q)
  | some .null => .ok none
  | none => .ok none
  | some _ => .error .shapeError

/-- `pd.DataFrame(ts_data)` accepts each point as a dict (a row);
anything else fails the frame construction. -/
def pointObj (p : Json) : Except FetchError (List (String × Json)) :=
  match p with
  | .obj fields => .ok fields
  | _ => .error .shapeError

/-- Does the frame built from these dicts have column `c`?  A column
exists exactly when at least one row dict carries the key (even with a
null value). -/
def hasCol (dicts : List (List (String × Json))) (c : String) : Bool :=
  dicts.any (fun d => (d.lookup c).isSome)

/-- Is row `d`'s cell in column `c` missing (NA)?  A key the dict lacks
gives NaN; an explicit null gives None; any other payload is a
non-missing object. -/
def cellNA (d : List (String × Json)) (c : String) : Bool :=
  match d.lookup c with
  | none => true
  | some .null => true
  | some _ => false

/-- Does row `d` survive the frame-wide `dropna()` as far as the
columns other than `value` and `dateTime` are concerned (e.g. a
sometimes-missing `qualifiers` key)?  `value` is checked through its
`to_numeric` coercion and `dateTime` has moved to the index. -/
def rowComplete (dicts : List (List (String × Json))) (d : List (String × Json)) : Bool :=
  dicts.all fun e => (e.map Prod.fst).all fun c =>
    decide (c = "value") || decide (c = "dateTime") || !cellNA d c

/-- Lines 88-92 applied to the first value block's point list:
`pd.DataFrame(ts_data)` (each point a dict), then
`event_df["value"] = pd.to_numeric(event_df["value"], errors="coerce")`
— a `KeyError` when no point carries a `value` key (in particular when
the point list is empty, since the frame then has no columns at all) —
then `pd.to_datetime(event_df["dateTime"])` — a `KeyError` when no
point carries a `dateTime` key, and a parse error on any unparseable
timestamp cell — then `set_index("dateTime").dropna()`, which drops
every row holding an NA cell in any remaining column.  Rows whose index
is NaT are dropped here as well: they keep no bucket under `resample`,
and the only observable difference (an all-NaT frame counting as
non-empty) still yields a skip for the event either way. -/
def fetchPoints (pointsJ : List Json) : Except FetchError (List (ℚ × ℚ)) :=
  match pointsJ.mapM pointObj with
  | .error e => .error e
  | .ok dicts =>
    if ¬ hasCol dicts "value" then .error .shapeError
    else if ¬ hasCol dicts "dateTime" then .error .shapeError
    else
      match dicts.mapM (fun d => parseInstant (d.lookup "dateTime")) with
      | .error e => .error e
      | .ok instants =>
        .ok ((dicts.zip instants).filterMap fun di =>
          match di.2, coerceNum (di.1.lookup "value") with
          | some t, some v =>
            if rowComplete dicts di.1 then some (t, v) else none
          | _, _ => none)

/-- `fetch_usgs_iv` (lines 65-94): raise for 4xx/5xx status, decode the
JSON body, default missing `value`/`timeSeries` keys, return an empty
series when the time-series list is falsy, else take the first series'
first value block and return its (instant, stage) points with
non-numeric stage values dropped (`dropna`).  Points whose timestamp is
NaT keep no bucket under `resample` and are dropped here as well; the
only observable difference (an all-NaT frame counting as non-empty) still
yields a skip for the event either way. -/
def fetch_usgs_iv (resp : HttpResponse) : Except FetchError (List (ℚ × ℚ)) :=
  match raise_for_status resp with
  | .error e => .error e
  | .ok _ =>
    match resp.body with
    | none => .error FetchError.jsonError
    | some data =>
      match jsonGetD data "value" (.obj []) with
      | .error e => .error e
      | .ok value =>
        match jsonGetD value "timeSeries" (.arr []) with
        | .error e => .error e
        | .ok ts_list =>
          if isFalsy ts_list then .ok []
          else
            match index0 ts_list with
            | .error e => .error e
            | .ok ts0 =>
              match jsonGet ts0 "values" with
              | .error e => .error e
              | .ok valuesBlocks =>
                match index0 valuesBlocks with
                | .error e => .error e
                | .ok block0 =>
                  match jsonGet block0 "value" with
                  | .error e => .error e
                  | .ok ts_data =>
                    match ts_data with
                    | .arr pointsJ => fetchPoints pointsJ
                    | _ => .error FetchError.shapeError

/-- Does one observation point conform to the documented schema: an
object (one frame row) carrying a `dateTime` member that is an instant
and a `value` member (any cell — non-numeric ones merely coerce to
NaN)?  A point missing either key is outside the schema: a block none
of whose points carry the key leaves the frame without that column and
the code raises a `KeyError`. -/
def pointOK : Json → Bool
  | .obj fields =>
    (match fields.lookup "dateTime" with
     | some (.num _) => true
     | _ => false) &&
    (fields.lookup "value").isSome
  | _ => false

/-- Does a JSON body conform to the schema of section 4.2 of the spec:
an object whose optional `value` member is an object whose optional
`timeSeries` member is a list of series, the first series (when any)
holding a non-empty `values` list whose first block holds a non-empty
`value` list of conforming points.  (A block with zero points builds a
column-less frame and the code raises a `KeyError`, so it is outside
the schema.) -/
def bodyOK (j : Json) : Bool :=
  match j with
  | .obj fields =>
    match fields.lookup "value" with
    | none => true
    | some (.obj vfields) =>
      match vfields.lookup "timeSeries" with
      | none => true
      | some (.arr []) => true
      | some (.arr (ts0 :: _)) =>
        match ts0 with
        | .obj sfields =>
          match sfields.lookup "values" with
          | some (.arr (b0 :: _)) =>
            match b0 with
            | .obj bfields =>
              match bfields.lookup "value" with
              | some (.arr (p0 :: prest)) => (p0 :: prest).all pointOK
              | _ => false
            | _ => false
          | _ => false
        | _ => false
      | some _ => false
    | some _ => false
  | _ => false

/-- A response is shape-conforming when its body is either malformed
JSON or JSON of the documented schema. -/
def ShapeOK (resp : HttpResponse) : Bool :=
  match resp.body with
  | none => true
  | some j => bodyOK j

/-- Does the body contain zero time series (counting a missing `value`
or `timeSeries` member, or a falsy list, as zero)? -/
def zeroTimeSeries (j : Json) : Bool :=
  match jsonGetD j "value" (.obj []) with
  | .ok v =>
    match jsonGetD v "timeSeries" (.arr []) with
    | .ok ts => isFalsy ts
    | .error _ => false
  | .error _ => false

/-- Is an `Except` value an error? -/
def isError : Except ε α → Bool
  | .error _ => true
  | .ok _ => false

/-! ### Event feature extraction (src/main.py, lines 134-158)

The raw series is resampled to wall-clock-aligned one-hour buckets
(`resample("1H").mean()`), keyed here by hour number. -/

def hourOf (t : ℚ) : ℤ := Int.floor (t / 3600)

/-- `[lo, lo+1, ..., lo+n-1]`. -/
def hourRange (lo : ℤ) : ℕ → List ℤ
  | 0 => []
  | n + 1 => lo :: hourRange (lo + 1) n

/-- Mean of the raw points falling in hour bucket `h`; `none` (NaN) for
a bucket with no underlying points. -/
def bucketMean (pts : List (ℚ × ℚ)) (h : ℤ) : Option ℚ :=
  let xs := (pts.filter (fun p => hourOf p.1 = h)).map Prod.snd
  if xs.length = 0 then none else some (xs.sum / xs.length)

/-- `event_df.resample("1H").mean()` (line 140): one bucket per hour from
the earliest to the latest raw hour, each carrying the mean of its
points (or NaN). -/
def resample1H (pts : List (ℚ × ℚ)) : List (ℤ × Option ℚ) :=
  match (pts.map (fun p => hourOf p.1)).min?, (pts.map (fun p => hourOf p.1)).max? with
  | some lo, some hi =>
    (hourRange lo ((hi - lo).toNat + 1)).map (fun h => (h, bucketMean pts h))
  | _, _ => []

structure HourlySample where
  hour : ℤ
  value : Option ℚ
  rate : Option ℚ
deriving Repr, DecidableEq

/-- `hourly_df["rate_of_rise"] = hourly_df["value"].diff()` (line 141):
each bucket's rate is its mean minus the previous bucket's mean, NaN
when either is NaN or there is no previous bucket. -/
def addRates (buckets : List (ℤ × Option ℚ)) : List HourlySample :=
  (buckets.zip (none :: buckets.map Prod.snd)).map fun bp =>
    { hour := bp.1.1
      value := bp.1.2
      rate :=
        match bp.1.2, bp.2 with
        | some v, some w => some (v - w)
        | _, _ => none }

/-- The boolean mask `hourly_df["value"] >= REFERENCE_STAGE`: a NaN mean
compares false. -/
def meetsReference (b : ℤ × Option ℚ) : Bool :=
  match b.2 with
  | some v => decide (REFERENCE_STAGE ≤ v)
  | none => false

/-- `hourly_df[hourly_df["value"] >= REFERENCE_STAGE].index.min()`
(line 144): the minimum timestamp among buckets whose mean meets the
reference stage, `NaT` = `none` if none do. -/
def crossedIdx (buckets : List (ℤ × Option ℚ)) : Option ℤ :=
  ((buckets.filter meetsReference).map Prod.fst).min?

/-- `hourly_df.loc[t, "rate_of_rise"]` (line 153): the rate stored at
bucket label `t` (`none` both for a NaN rate and for a missing label,
either of which ends in a skip). -/
def rateAt (samples : List HourlySample) (t : ℤ) : Option ℚ :=
  match samples.find? (fun s => s.hour = t) with
  | some s => s.rate
  | none => none

structure RawFeature where
  cross_time : ℤ
  rate : ℚ
deriving Repr, DecidableEq

inductive StepOutcome where
  | noData
  | noCrossing
  | badRate
  | valid (f : RawFeature)
deriving Repr, DecidableEq

/-- The per-event extraction of lines 134-158 applied to a fetched
series: empty series ↦ no-data skip; no bucket reaching the reference
stage ↦ no-crossing skip; NaN, zero or negative rate at the first
crossing ↦ bad-rate skip; otherwise a feature with the crossing time
and the rate there. -/
def eventStep (pts : List (ℚ × ℚ)) : StepOutcome :=
  if pts.length = 0 then .noData
  else
    let hourly := resample1H pts
    let rated := addRates hourly
    match crossedIdx hourly with
    | none => .noCrossing
    | some t =>
      match rateAt rated t with
      | none => .badRate
      | some rate => if rate ≤ 0 then .badRate else .valid ⟨t, rate⟩

/-! ### Orchestrator (src/main.py, `main`, lines 101-222) -/

/-- Days since the Unix epoch of a calendar date (civil-calendar
arithmetic), standing in for `datetime`/`timedelta` day arithmetic. -/
def toDays (d : Date) : ℤ :=
  let y : ℤ := if d.month ≤ 2 then d.year - 1 else d.year
  let m : ℤ := d.month
  let era : ℤ := Int.fdiv y 400
  let yoe : ℤ := y - era * 400
  let mp : ℤ := (m + 9) % 12
  let doy : ℤ := Int.fdiv (153 * mp + 2) 5 + (d.day : ℤ) - 1
  let doe : ℤ := yoe * 365 + Int.fdiv yoe 4 - Int.fdiv yoe 100 + doy
  era * 146097 + doe - 719468

/-- The environment seen by one run: a fetch attempt for a (start, end)
day window either raises or returns the cleaned series.
`fetch_usgs_iv` composed with any transport yields such a fetcher. -/
def Fetcher : Type := ℤ → ℤ → Except FetchError (List (ℚ × ℚ))

structure EventFeature where
  crest_date : Date
  crest_height : ℚ
  rate_of_rise_per_hr : ℚ
  cross_time : ℤ
deriving Repr, DecidableEq

structure LoopState where
  results : List EventFeature
  valid_event_count : ℕ
  skipped_event_count : ℕ
deriving Repr, DecidableEq

def initialState : LoopState := ⟨[], 0, 0⟩

def skipOne (st : LoopState) : LoopState :=
  { st with skipped_event_count := st.skipped_event_count + 1 }

/-- The body of the `try` block for one eligible record (lines 131-170):
fetch the window [crest − 4 days, crest + 1 day], then extract. -/
def processEvent (fetch : Fetcher) (r : CrestRecord) : Except FetchError StepOutcome := do
  let pts ← fetch (toDays r.crest_date - 4) (toDays r.crest_date + 1)
  .ok (eventStep pts)

/-- One iteration of the main loop (lines 116-174): records before
`MIN_IV_YEAR` are skipped before any fetch; any exception from the
fetch-or-extract step is caught and counted as a skip for this record;
a valid outcome appends its feature and counts one valid event. -/
def stepState (fetch : Fetcher) (st : LoopState) (r : CrestRecord) : LoopState :=
  if r.crest_date.year < MIN_IV_YEAR then skipOne st
  else
    match processEvent fetch r with
    | .error _ => skipOne st
    | .ok .noData => skipOne st
    | .ok .noCrossing => skipOne st
    | .ok .badRate => skipOne st
    | .ok (.valid f) =>
      { st with
        results := st.results ++
          [⟨r.crest_date, r.crest_height, f.rate, f.cross_time⟩]
        valid_event_count := st.valid_event_count + 1 }

/-- The full main loop over the parsed records. -/
def mainLoop (fetch : Fetcher) (records : List CrestRecord) : LoopState :=
  records.foldl (stepState fetch) initialState

/-! ### Regression (src/main.py, lines 188-192; `scipy.stats.linregress`)

`slope`/`intercept` are `none` when the computation produces NaN (all x
identical, so `ssxym / ssxm` is 0/0).  `r` is set to 0 outright when
`ssxm` or `ssym` vanishes, else it is `ssxym / sqrt(ssxm * ssym)`
clamped to [-1, 1]; its square is represented exactly as the clamp of
`ssxym² / (ssxm·ssym)` at 1. -/

structure LinregressResult where
  slope : Option ℚ
  intercept : Option ℚ
  r_squared : ℚ
deriving Repr, DecidableEq

inductive RegressionError where
  | emptyInput
deriving Repr, DecidableEq

def xmean (pts : List (ℚ × ℚ)) : ℚ := (pts.map Prod.fst).sum / pts.length

def ymean (pts : List (ℚ × ℚ)) : ℚ := (pts.map Prod.snd).sum / pts.length

/-- `np.cov(x, y, bias=1)` entry for x: mean squared deviation. -/
def ssxm (pts : List (ℚ × ℚ)) : ℚ :=
  (pts.map (fun p => (p.1 - xmean pts) * (p.1 - xmean pts))).sum / pts.length

def ssym (pts : List (ℚ × ℚ)) : ℚ :=
  (pts.map (fun p => (p.2 - ymean pts) * (p.2 - ymean pts))).sum / pts.length

def ssxym (pts : List (ℚ × ℚ)) : ℚ :=
  (pts.map (fun p => (p.1 - xmean pts) * (p.2 - ymean pts))).sum / pts.length

def linregress (pts : List (ℚ × ℚ)) : Except RegressionError LinregressResult :=
  if pts.length = 0 then .error .emptyInput
  else
    let r2 :=
      if ssxm pts = 0 ∨ ssym pts = 0 then 0
      else min 1 (ssxym pts * ssxym pts / (ssxm pts * ssym pts))
    if ssxm pts = 0 then .ok ⟨none, none, r2⟩
    else .ok ⟨some (ssxym pts / ssxm pts),
      some (ymean pts - ssxym pts / ssxm pts * xmean pts), r2⟩

/-! ### The whole run (`main`) -/

inductive MainError where
  | parseError
  | regressionError
deriving Repr, DecidableEq

structure MainOutput where
  parsed_count : ℕ
  valid_event_count : ℕ
  skipped_event_count : ℕ
  nothing_to_do : Bool
  regression : Option LinregressResult
  plotted : Bool
deriving Repr, DecidableEq

/-- `main` (lines 101-222): parse the CSV (an extraction exception
propagates), run the loop, and if no results were collected report
nothing-to-do and return before regression and plotting; otherwise run
the regression (whose own failure propagates) and render the plot. -/
def main (rows : List CsvRow) (fetch : Fetcher) : Except MainError MainOutput := do
  let df ← (parse_crest_csv rows).mapError (fun _ => MainError.parseError)
  let st := mainLoop fetch df
  if st.results.length = 0 then
    .ok ⟨df.length, st.valid_event_count, st.skipped_event_count, true, none, false⟩
  else do
    let reg ← (linregress (st.results.map fun f =>
        (f.rate_of_rise_per_hr, f.crest_height))).mapError
      (fun _ => MainError.regressionError)
    .ok ⟨df.length, st.valid_event_count, st.skipped_event_count, false, some reg, true⟩

/-! ### Supporting lemmas -/

theorem eventStep_valid {pts : List (ℚ × ℚ)} {f : RawFeature}
    (h : eventStep pts = .valid f) :
    crossedIdx (resample1H pts) = some f.cross_time ∧
      rateAt (addRates (resample1H pts)) f.cross_time = some f.rate ∧ 0 < f.rate := by
  unfold eventStep at h
  split at h
  · cases h
  · simp only [] at h
    split at h
    next => cases h
    next t hc =>
      split at h
      next hr => cases h
      next rate hr =>
        split at h
        next => cases h
        next hle =>
          cases h
          exact ⟨hc, hr, lt_of_not_le hle⟩

theorem stepState_cases (fetch : Fetcher) (st : LoopState) (r : CrestRecord) :
    stepState fetch st r = skipOne st ∨
      ∃ f, processEvent fetch r = .ok (.valid f) ∧
        ¬ r.crest_date.year < MIN_IV_YEAR ∧
        stepState fetch st r =
          { st with
            results := st.results ++
              [⟨r.crest_date, r.crest_height, f.rate, f.cross_time⟩]
            valid_event_count := st.valid_event_count + 1 } := by
  unfold stepState
  split
  · exact .inl rfl
  · rcases hp : processEvent fetch r with e | o
    · exact .inl rfl
    · rcases o with _ | _ | _ | f
      · exact .inl rfl
      · exact .inl rfl
      · exact .inl rfl
      · exact .inr ⟨f, rfl, by assumption, rfl⟩

theorem foldl_counts (fetch : Fetcher) (records : List CrestRecord) :
    ∀ st : LoopState,
      (records.foldl (stepState fetch) st).valid_event_count +
          (records.foldl (stepState fetch) st).skipped_event_count =
        st.valid_event_count + st.skipped_event_count + records.length := by
  induction records with
  | nil => intro st; simp
  | cons r rs ih =>
    intro st
    rw [List.foldl_cons, ih]
    rcases stepState_cases fetch st r with h | ⟨f, _, _, h⟩ <;>
      simp [h, skipOne] <;> omega

theorem foldl_results_length (fetch : Fetcher) (records : List CrestRecord) :
    ∀ st : LoopState,
      (records.foldl (stepState fetch) st).results.length +
          st.valid_event_count =
        (records.foldl (stepState fetch) st).valid_event_count +
          st.results.length := by
  induction records with
  | nil => intro st; simp [Nat.add_comm]
  | cons r rs ih =>
    intro st
    rw [List.foldl_cons]
    have := ih (stepState fetch st r)
    rcases stepState_cases fetch st r with h | ⟨f, _, _, h⟩ <;>
      rw [h] at this ⊢ <;> simp [skipOne] at this ⊢ <;> omega

theorem exceptBindOk {ε α β : Type} (a : α) (f : α → Except ε β) :
    (Except.ok a >>= f) = f a := rfl

theorem exceptBindErr {ε α β : Type} (e : ε) (f : α → Except ε β) :
    ((Except.error e : Except ε α) >>= f) = .error e := rfl

theorem processEvent_ok {fetch : Fetcher} {r : CrestRecord} {o : StepOutcome}
    (h : processEvent fetch r = .ok o) :
    ∃ pts, fetch (toDays r.crest_date - 4) (toDays r.crest_date + 1) = .ok pts ∧
      eventStep pts = o := by
  unfold processEvent at h
  rcases hf : fetch (toDays r.crest_date - 4) (toDays r.crest_date + 1) with e | pts <;>
    rw [show (do
        let pts ← fetch (toDays r.crest_date - 4) (toDays r.crest_date + 1)
        Except.ok (eventStep pts) : Except FetchError StepOutcome) =
      (fetch (toDays r.crest_date - 4) (toDays r.crest_date + 1)).bind
        (fun pts => Except.ok (eventStep pts)) from rfl, hf] at h
  · cases h
  · cases h
    exact ⟨pts, rfl, rfl⟩

theorem foldl_results_rate_pos (fetch : Fetcher) (records : List CrestRecord) :
    ∀ st : LoopState, (∀ g ∈ st.results, 0 < g.rate_of_rise_per_hr) →
      ∀ g ∈ (records.foldl (stepState fetch) st).results, 0 < g.rate_of_rise_per_hr := by
  induction records with
  | nil => intro st h; simpa using h
  | cons r rs ih =>
    intro st h
    rw [List.foldl_cons]
    apply ih
    rcases stepState_cases fetch st r with hc | ⟨f, hp, _, hc⟩ <;> rw [hc]
    · intro g hg
      exact h g (by simpa [skipOne] using hg)
    · intro g hg
      simp only [List.mem_append, List.mem_singleton] at hg
      rcases hg with hg | hg
      · exact h g hg
      · rcases processEvent_ok hp with ⟨pts, _, hstep⟩
        rcases eventStep_valid hstep with ⟨_, _, hrate⟩
        cases hg
        exact hrate

/-- C2: every `EventFeature` emitted by a run of the main loop carries a
strictly positive `rate_of_rise_at_reference`; an undefined, zero or
negative rate at the crossing bucket never yields a feature. -/
theorem c2_rate_positive (fetch : Fetcher) (records : List CrestRecord)
    (f : EventFeature) (hf : f ∈ (mainLoop fetch records).results) :
    0 < f.rate_of_rise_per_hr := by
  exact foldl_results_rate_pos fetch records initialState (by intro g hg; cases hg) f hf

/-- C4: for a record whose fetch-or-extract step raises, the main loop
catches the exception, counts exactly one skip for that record (results
and valid count untouched), and goes on to fold the remaining records —
the exception never escapes the loop. -/
theorem c4_partial_failure_isolation (fetch : Fetcher) (r : CrestRecord)
    (st : LoopState) (e : FetchError)
    (h : processEvent fetch r = .error e) :
    stepState fetch st r = skipOne st ∧
    ∀ pre post : List CrestRecord,
      mainLoop fetch (pre ++ r :: post) =
        List.foldl (stepState fetch)
          (stepState fetch (List.foldl (stepState fetch) initialState pre) r) post := by
  constructor
  · unfold stepState
    split
    · rfl
    · rw [h]
  · intro pre post
    unfold mainLoop
    rw [List.foldl_append, List.foldl_cons]

/-- C8: a parsed record whose crest year precedes `MIN_IV_YEAR` is
counted as skipped without any retrieval: the loop step ignores the
fetcher entirely (the same state results under any two fetchers). -/
theorem c8_eligibility_skip (r : CrestRecord) (h : r.crest_date.year < MIN_IV_YEAR) :
    (∀ (fetch : Fetcher) (st : LoopState), stepState fetch st r = skipOne st) ∧
    ∀ (f g : Fetcher) (st : LoopState), stepState f st r = stepState g st r := by
  constructor
  · intro fetch st
    unfold stepState
    rw [if_pos h]
  · intro f g st
    unfold stepState
    rw [if_pos h, if_pos h]

/-- C10: after a successful run, the final tally partitions the parsed
records: valid events plus skipped events equals the number of parsed
crest records. -/
theorem c10_tally_partition (rows : List CsvRow) (fetch : Fetcher) (out : MainOutput)
    (h : main rows fetch = .ok out) :
    out.valid_event_count + out.skipped_event_count = out.parsed_count := by
  unfold main at h
  rcases hp : parse_crest_csv rows with u | df <;>
    rw [hp] at h <;>
    simp only [Except.mapError, exceptBindErr, exceptBindOk] at h
  · cases h
  · have hcount := foldl_counts fetch df initialState
    simp only [initialState] at hcount
    split at h
    · cases h
      simpa [mainLoop, initialState] using hcount
    · rcases hl : linregress ((mainLoop fetch df).results.map fun f =>
          (f.rate_of_rise_per_hr, f.crest_height)) with u | reg <;>
        rw [hl] at h <;>
        simp only [Except.mapError, exceptBindErr, exceptBindOk] at h
      · cases h
      · cases h
        simpa [mainLoop, initialState] using hcount

/-- C7: a successful run that collected zero valid events reports
nothing-to-analyze and returns with neither a regression result nor a
rendered plot. -/
theorem c7_nothing_to_analyze (rows : List CsvRow) (fetch : Fetcher) (out : MainOutput)
    (h : main rows fetch = .ok out) (hz : out.valid_event_count = 0) :
    out.nothing_to_do = true ∧ out.regression = none ∧ out.plotted = false := by
  unfold main at h
  rcases hp : parse_crest_csv rows with u | df <;>
    rw [hp] at h <;>
    simp only [Except.mapError, exceptBindErr, exceptBindOk] at h
  · cases h
  · have hlen := foldl_results_length fetch df initialState
    split at h
    · cases h
      exact ⟨rfl, rfl, rfl⟩
    next hne =>
      exfalso
      rcases hl : linregress ((mainLoop fetch df).results.map fun f =>
          (f.rate_of_rise_per_hr, f.crest_height)) with u | reg <;>
        rw [hl] at h <;>
        simp only [Except.mapError, exceptBindErr, exceptBindOk] at h
      · cases h
      · cases h
        simp only [MainOutput.valid_event_count] at hz
        simp only [mainLoop, initialState] at hz hne hlen
        simp only [List.length_nil] at hlen
        omega

theorem meetsReference_iff (b : ℤ × Option ℚ) :
    meetsReference b = true ↔ ∃ v, b.2 = some v ∧ REFERENCE_STAGE ≤ v := by
  rcases b with ⟨h, _ | v⟩ <;> simp [meetsReference]

theorem crossedIdx_spec {buckets : List (ℤ × Option ℚ)} {t : ℤ} :
    crossedIdx buckets = some t ↔
      (∃ b ∈ buckets, b.1 = t ∧ ∃ v, b.2 = some v ∧ REFERENCE_STAGE ≤ v) ∧
      ∀ b ∈ buckets, ∀ v, b.2 = some v → REFERENCE_STAGE ≤ v → t ≤ b.1 := by
  unfold crossedIdx
  rw [@List.min?_eq_some_iff ℤ _ _ _ ⟨@fun p q h1 h2 => le_antisymm h1 h2⟩
    (fun a => le_refl a) (fun a b => min_choice a b) (fun a b c => le_min_iff)]
  constructor
  · rintro ⟨hmem, hle⟩
    simp only [List.mem_map, List.mem_filter] at hmem
    obtain ⟨b, ⟨hb, hq⟩, hbt⟩ := hmem
    obtain ⟨v, hbv, hge⟩ := (meetsReference_iff b).mp hq
    refine ⟨⟨b, hb, hbt, v, hbv, hge⟩, ?_⟩
    intro c hc v hcv hvge
    exact hle c.1 (List.mem_map_of_mem Prod.fst
      (List.mem_filter.mpr ⟨hc, (meetsReference_iff c).mpr ⟨v, hcv, hvge⟩⟩))
  · rintro ⟨⟨b, hb, hbt, v, hbv, hge⟩, hle⟩
    constructor
    · exact hbt ▸ List.mem_map_of_mem Prod.fst
        (List.mem_filter.mpr ⟨hb, (meetsReference_iff b).mpr ⟨v, hbv, hge⟩⟩)
    · intro u hu
      simp only [List.mem_map, List.mem_filter] at hu
      obtain ⟨c, ⟨hc, hq⟩, hcu⟩ := hu
      obtain ⟨w, hcw, hwge⟩ := (meetsReference_iff c).mp hq
      exact hcu ▸ hle c hc w hcw hwge

/-- C1: a feature is emitted only with the chronologically earliest
hourly bucket whose mean meets the reference stage as its crossing
(that bucket qualifies, and its hour is ≤ every qualifying bucket's
hour); when no bucket's mean reaches the reference stage the event
yields no feature. -/
theorem c1_leftmost_crossing (pts : List (ℚ × ℚ)) :
    (∀ f : RawFeature, eventStep pts = .valid f →
      (∃ b ∈ resample1H pts, b.1 = f.cross_time ∧
        ∃ v, b.2 = some v ∧ REFERENCE_STAGE ≤ v) ∧
      ∀ b ∈ resample1H pts, ∀ v, b.2 = some v → REFERENCE_STAGE ≤ v →
        f.cross_time ≤ b.1) ∧
    ((∀ b ∈ resample1H pts, ∀ v, b.2 = some v → v < REFERENCE_STAGE) →
      ∀ f : RawFeature, eventStep pts ≠ .valid f) := by
  constructor
  · intro f hv
    exact crossedIdx_spec.mp (eventStep_valid hv).1
  · intro hbelow f hv
    obtain ⟨⟨b, hb, _, v, hbv, hge⟩, _⟩ := crossedIdx_spec.mp (eventStep_valid hv).1
    exact absurd hge (not_le.mpr (hbelow b hb v hbv))

theorem exceptMapM_nil {ε α β : Type} (f : α → Except ε β) :
    ([] : List α).mapM f = .ok [] := rfl

theorem exceptMapM_cons {ε α β : Type} (f : α → Except ε β) (r : α) (rows : List α)
    (out : List β) :
    ((r :: rows).mapM f = .ok out) ↔
      ∃ v vs, f r = .ok v ∧ rows.mapM f = .ok vs ∧ out = v :: vs := by
  rw [List.mapM_cons]
  rcases hf : f r with e | v
  · simp only [exceptBindErr]
    constructor
    · intro h; cases h
    · rintro ⟨v, vs, hv, _, _⟩
      cases hv
  · simp only [exceptBindOk]
    rcases hm : rows.mapM f with e2 | vs
    · simp only [exceptBindErr]
      constructor
      · intro h; cases h
      · rintro ⟨w, ws, hw, hws, _⟩
        cases hws
    · simp only [exceptBindOk]
      constructor
      · intro h
        cases h
        exact ⟨v, vs, rfl, rfl, rfl⟩
      · rintro ⟨w, ws, hw, hws, hout⟩
        cases hw
        cases hws
        cases hout
        rfl

theorem exceptMapM_mem {ε α β : Type} {f : α → Except ε β} :
    ∀ {rows : List α} {out : List β}, rows.mapM f = .ok out →
      ∀ v ∈ out, ∃ r ∈ rows, f r = .ok v := by
  intro rows
  induction rows with
  | nil =>
    intro out h v hv
    rw [exceptMapM_nil] at h
    cases h
    cases hv
  | cons r rs ih =>
    intro out h v hv
    obtain ⟨w, ws, hw, hws, hout⟩ := (exceptMapM_cons f r rs out).mp h
    subst hout
    rcases hv with _ | ⟨_, hv⟩
    · exact ⟨r, List.mem_cons_self r rs, hw⟩
    · obtain ⟨r2, hr2, hfr2⟩ := ih hws v hv
      exact ⟨r2, List.mem_cons_of_mem r hr2, hfr2⟩

theorem exceptMapM_total {ε α β : Type} {f : α → Except ε β} :
    ∀ {rows : List α}, (∀ r ∈ rows, ∃ v, f r = .ok v) →
      ∃ out, rows.mapM f = .ok out := by
  intro rows
  induction rows with
  | nil => intro _; exact ⟨[], rfl⟩
  | cons r rs ih =>
    intro h
    obtain ⟨v, hv⟩ := h r (List.mem_cons_self r rs)
    obtain ⟨vs, hvs⟩ := ih (fun x hx => h x (List.mem_cons_of_mem r hx))
    exact ⟨v :: vs, (exceptMapM_cons f r rs (v :: vs)).mpr ⟨v, vs, hv, hvs, rfl⟩⟩

theorem parse_zip_characterization :
    ∀ (rows : List CsvRow) (hs : List (Option ℚ)) (ds : List (Option Date)),
      rows.mapM (fun r => extract_height r.height_str) = .ok hs →
      rows.mapM (fun r => extract_date r.date_str) = .ok ds →
      ((hs.zip ds).filterMap fun hd =>
        match hd with
        | (some h, some d) => some (⟨h, d⟩ : CrestRecord)
        | _ => none) = rows.filterMap rowRecord? := by
  intro rows
  induction rows with
  | nil =>
    intro hs ds hh hd
    rw [exceptMapM_nil] at hh hd
    cases hh
    cases hd
    rfl
  | cons r rs ih =>
    intro hs ds hh hd
    obtain ⟨h0, hrest, hfr, hmrest, hout⟩ := (exceptMapM_cons _ r rs hs).mp hh
    obtain ⟨d0, drest, hfd, hdrest, dout⟩ := (exceptMapM_cons _ r rs ds).mp hd
    subst hout
    subst dout
    have tail := ih hrest drest hmrest hdrest
    rcases h0 with _ | hq <;> rcases d0 with _ | dq <;>
      simp only [List.zip_cons_cons, List.filterMap_cons, rowRecord?, hfr, hfd, tail]

/-- C3 (amended): when no row's matched token fails conversion (no
`float` or `to_datetime` exception), the parser succeeds, rows where
either regex finds no match are silently dropped, and each surviving
row contributes exactly its extracted (height, date) record, in input
order — so no output record carries a null height or date.  (The
original claim fails: a matched token that does not convert raises
instead of being dropped, see the counterexample.) -/
theorem c3_silent_drop (rows : List CsvRow)
    (hnoraise : ∀ r ∈ rows, extract_height r.height_str ≠ .error () ∧
      extract_date r.date_str ≠ .error ()) :
    parse_crest_csv rows = .ok (rows.filterMap rowRecord?) := by
  have hh : ∃ hs, rows.mapM (fun r => extract_height r.height_str) = .ok hs := by
    apply exceptMapM_total
    intro r hr
    rcases hx : extract_height r.height_str with u | v
    · cases u
      exact absurd hx (hnoraise r hr).1
    · exact ⟨v, rfl⟩
  have hd : ∃ ds, rows.mapM (fun r => extract_date r.date_str) = .ok ds := by
    apply exceptMapM_total
    intro r hr
    rcases hx : extract_date r.date_str with u | v
    · cases u
      exact absurd hx (hnoraise r hr).2
    · exact ⟨v, rfl⟩
  obtain ⟨hs, hh⟩ := hh
  obtain ⟨ds, hd⟩ := hd
  unfold parse_crest_csv
  rw [hh, exceptBindOk, hd, exceptBindOk,
    parse_zip_characterization rows hs ds hh hd]

/-- C3 counterexample: a height cell whose first `[\d\.]+` token is "."
(no digits) makes `float` raise `ValueError`, so the row is not dropped
silently — `parse_crest_csv` raises instead of returning a result. -/
theorem c3_counterexample :
    parse_crest_csv [⟨some ['.'], some "on 01-01-2000".toList⟩] = .error () ∧
    ¬ ∃ recs, parse_crest_csv [⟨some ['.'], some "on 01-01-2000".toList⟩] = .ok recs := by
  constructor
  · decide
  · rintro ⟨recs, h⟩
    rw [show parse_crest_csv [⟨some ['.'], some "on 01-01-2000".toList⟩] = .error () from
      by decide] at h
    cases h

theorem pyFloat?_nonneg {tok : List Char} {q : ℚ} (h : pyFloat? tok = some q) : 0 ≤ q := by
  unfold pyFloat? at h
  split at h
  · cases h
  · split at h
    · cases h
    · simp only [Option.some.injEq] at h
      rw [← h]
      have h1 : (0 : ℚ) ≤ (natOfDigits (tok.takeWhile Char.isDigit) : ℚ) :=
        Nat.cast_nonneg _
      have h2 : (0 : ℚ) ≤ (natOfDigits ((tok.dropWhile Char.isDigit).drop 1) : ℚ) /
          (10 : ℚ) ^ ((tok.dropWhile Char.isDigit).drop 1).length :=
        div_nonneg (Nat.cast_nonneg _) (pow_nonneg (by norm_num) _)
      exact add_nonneg h1 h2

theorem extract_height_ok_some {cell : Option (List Char)} {q : ℚ}
    (h : extract_height cell = .ok (some q)) : 0 ≤ q := by
  rcases cell with _ | s
  · simp [extract_height] at h
  · rcases hft : firstNumToken s with _ | tok
    · simp [extract_height, hft] at h
    · rcases hf : pyFloat? tok with _ | q0
      · simp [extract_height, hft, hf] at h
      · simp [extract_height, hft, hf] at h
        exact h ▸ pyFloat?_nonneg hf

/-- C9 (amended): every record surviving parsing carries a nonnegative
height (the `[\d\.]+` token cannot encode a sign, so the extracted
value is ≥ 0; it can be exactly 0, so the claimed strict invariant
`height > 0` fails, see the counterexample). -/
theorem c9_height_nonneg (rows : List CsvRow) (recs : List CrestRecord)
    (h : parse_crest_csv rows = .ok recs) : ∀ rec ∈ recs, 0 ≤ rec.crest_height := by
  unfold parse_crest_csv at h
  rcases hh : rows.mapM (fun r => extract_height r.height_str) with u | hs <;> rw [hh] at h
  · rw [exceptBindErr] at h
    cases h
  · rw [exceptBindOk] at h
    rcases hd : rows.mapM (fun r => extract_date r.date_str) with u | ds <;> rw [hd] at h
    · rw [exceptBindErr] at h
      cases h
    · rw [exceptBindOk] at h
      cases h
      intro rec hrec
      obtain ⟨hd0, hmem, hconv⟩ := List.mem_filterMap.mp hrec
      rcases hd0 with ⟨_ | hq, _ | dq⟩ <;> simp only [Option.some.injEq] at hconv
      · cases hconv
      · cases hconv
      · cases hconv
      · have hin : (some hq) ∈ hs := (List.of_mem_zip hmem).1
        obtain ⟨r, _, hfr⟩ := exceptMapM_mem hh _ hin
        have hnn := extract_height_ok_some hfr
        rw [← hconv]
        exact hnn

theorem sum_eq_zero_of_nonneg {l : List ℚ} (h0 : ∀ x ∈ l, 0 ≤ x) (hs : l.sum = 0) :
    ∀ x ∈ l, x = 0 := by
  induction l with
  | nil => intro x hx; cases hx
  | cons y ys ih =>
    rw [List.sum_cons] at hs
    have hy : 0 ≤ y := h0 y (List.mem_cons_self _ _)
    have hys : 0 ≤ ys.sum :=
      List.sum_nonneg (fun x hx => h0 x (List.mem_cons_of_mem _ hx))
    have hy0 : y = 0 := by linarith
    have hsum0 : ys.sum = 0 := by linarith
    intro x hx
    cases hx with
    | head => exact hy0
    | tail _ hx => exact ih (fun z hz => h0 z (List.mem_cons_of_mem _ hz)) hsum0 x hx

theorem sum_snd_line {a b : ℚ} {pts : List (ℚ × ℚ)}
    (hline : ∀ p ∈ pts, p.2 = a * p.1 + b) :
    (pts.map Prod.snd).sum = a * (pts.map Prod.fst).sum + b * pts.length := by
  induction pts with
  | nil => simp
  | cons p ps ih =>
    have hp := hline p (List.mem_cons_self _ _)
    have ihp := ih (fun q hq => hline q (List.mem_cons_of_mem _ hq))
    simp only [List.map_cons, List.sum_cons, List.length_cons, ihp, hp]
    push_cast
    ring

theorem ymean_line {a b : ℚ} {pts : List (ℚ × ℚ)}
    (hline : ∀ p ∈ pts, p.2 = a * p.1 + b) (hn : pts.length ≠ 0) :
    ymean pts = a * xmean pts + b := by
  have hnq : (pts.length : ℚ) ≠ 0 := Nat.cast_ne_zero.mpr hn
  unfold ymean xmean
  rw [sum_snd_line hline]
  field_simp

theorem ssxym_line {a b : ℚ} {pts : List (ℚ × ℚ)}
    (hline : ∀ p ∈ pts, p.2 = a * p.1 + b) (hn : pts.length ≠ 0) :
    ssxym pts = a * ssxm pts := by
  unfold ssxym ssxm
  rw [← mul_div_assoc, ← List.sum_map_mul_left]
  congr 1
  refine congrArg List.sum (List.map_congr_left ?_)
  intro p hp
  have hy : p.2 - ymean pts = a * (p.1 - xmean pts) := by
    rw [hline p hp, ymean_line hline hn]
    ring
  rw [hy]
  ring

theorem ssym_line {a b : ℚ} {pts : List (ℚ × ℚ)}
    (hline : ∀ p ∈ pts, p.2 = a * p.1 + b) (hn : pts.length ≠ 0) :
    ssym pts = a * a * ssxm pts := by
  unfold ssym ssxm
  rw [← mul_div_assoc, ← List.sum_map_mul_left]
  congr 1
  refine congrArg List.sum (List.map_congr_left ?_)
  intro p hp
  have hy : p.2 - ymean pts = a * (p.1 - xmean pts) := by
    rw [hline p hp, ymean_line hline hn]
    ring
  rw [hy]
  ring

theorem ssxm_ne_zero {pts : List (ℚ × ℚ)}
    (hx : ∃ p ∈ pts, ∃ q ∈ pts, p.1 ≠ q.1) : ssxm pts ≠ 0 := by
  obtain ⟨p, hp, q, hq, hpq⟩ := hx
  have hn : pts.length ≠ 0 := by
    cases pts with
    | nil => cases hp
    | cons r rs => simp
  have hnq : (pts.length : ℚ) ≠ 0 := Nat.cast_ne_zero.mpr hn
  intro h0
  unfold ssxm at h0
  rw [div_eq_zero_iff] at h0
  rcases h0 with h0 | h0
  · have hall := sum_eq_zero_of_nonneg
      (l := pts.map fun p => (p.1 - xmean pts) * (p.1 - xmean pts))
      (by
        intro x hx
        obtain ⟨r, _, hr⟩ := List.mem_map.mp hx
        exact hr ▸ mul_self_nonneg _) h0
    have hpz : p.1 - xmean pts = 0 := by
      have := hall ((p.1 - xmean pts) * (p.1 - xmean pts))
        (List.mem_map_of_mem _ hp)
      exact mul_self_eq_zero.mp this
    have hqz : q.1 - xmean pts = 0 := by
      have := hall ((q.1 - xmean pts) * (q.1 - xmean pts))
        (List.mem_map_of_mem _ hq)
      exact mul_self_eq_zero.mp this
    exact hpq (by linarith)
  · exact hnq h0

/-- C6 (amended): for points lying exactly on y = a·x + b with at least
two distinct x values and a nonzero slope a, `linregress` returns slope
a, intercept b and r_squared 1.  (For a horizontal line, a = 0, the
source sets r = 0, so r_squared is 0, not 1 — see the counterexample.) -/
theorem c6_perfect_line (a b : ℚ) (pts : List (ℚ × ℚ))
    (hline : ∀ p ∈ pts, p.2 = a * p.1 + b)
    (hx : ∃ p ∈ pts, ∃ q ∈ pts, p.1 ≠ q.1) (ha : a ≠ 0) :
    linregress pts = .ok ⟨some a, some b, 1⟩ := by
  have hn : pts.length ≠ 0 := by
    obtain ⟨p, hp, _⟩ := hx
    cases pts with
    | nil => cases hp
    | cons r rs => simp
  have hssxm := ssxm_ne_zero hx
  have hxym := ssxym_line hline hn
  have hym := ssym_line hline hn
  have hssym : ssym pts ≠ 0 := by
    rw [hym]
    exact mul_ne_zero (mul_ne_zero ha ha) hssxm
  unfold linregress
  rw [if_neg hn]
  simp only [if_neg hssxm, if_neg (not_or_intro hssxm hssym)]
  have hslope : ssxym pts / ssxm pts = a := by
    rw [hxym, mul_div_assoc, div_self hssxm, mul_one]
  have hr2 : ssxym pts * ssxym pts / (ssxm pts * ssym pts) = 1 := by
    rw [hxym, hym]
    field_simp
    ring
  have hb : a * xmean pts + b - a * xmean pts = b := by ring
  rw [hslope, hr2, ymean_line hline hn, hb]
  simp

theorem pointOK_elim {p : Json} (hp : pointOK p = true) :
    ∃ fields, p = .obj fields ∧
      (∃ q, fields.lookup "dateTime" = some (Json.num q)) ∧
      (fields.lookup "value").isSome = true := by
  rcases p with _ | _ | _ | _ | _ | fields <;> try exact (Bool.false_ne_true hp).elim
  unfold pointOK at hp
  rw [Bool.and_eq_true] at hp
  refine ⟨fields, rfl, ?_, hp.2⟩
  rcases hdt : fields.lookup "dateTime" with _ | v <;> rw [hdt] at hp
  · exact (Bool.false_ne_true hp.1).elim
  · rcases v with _ | _ | q | _ | _ | _ <;> try exact (Bool.false_ne_true hp.1).elim
    exact ⟨q, rfl⟩

theorem pointsObj_ok : ∀ {l : List Json}, l.all pointOK = true →
    ∃ dicts, l.mapM pointObj = .ok dicts ∧
      (∀ d ∈ dicts, (∃ q, d.lookup "dateTime" = some (Json.num q)) ∧
        (d.lookup "value").isSome = true) ∧
      dicts.length = l.length := by
  intro l
  induction l with
  | nil =>
    intro _
    refine ⟨[], rfl, ?_, rfl⟩
    intro d hd
    cases hd
  | cons p ps ih =>
    intro hall
    rw [List.all_cons, Bool.and_eq_true] at hall
    obtain ⟨fields, hpf, hdt, hval⟩ := pointOK_elim hall.1
    obtain ⟨ds, hds, hprop, hlen⟩ := ih hall.2
    refine ⟨fields :: ds, ?_, ?_, by simp [hlen]⟩
    · exact (exceptMapM_cons _ _ _ _).mpr ⟨fields, ds, by rw [hpf]; rfl, hds, rfl⟩
    · intro d hd
      cases hd with
      | head => exact ⟨hdt, hval⟩
      | tail _ hd => exact hprop d hd

theorem fetchPoints_ok {p0 : Json} {prest : List Json}
    (hall : (p0 :: prest).all pointOK = true) :
    ∃ out, fetchPoints (p0 :: prest) = .ok out := by
  obtain ⟨dicts, hds, hprop, hlen⟩ := pointsObj_ok hall
  obtain ⟨d0, drest, rfl⟩ : ∃ d0 drest, dicts = d0 :: drest := by
    rcases dicts with _ | ⟨d0, drest⟩
    · simp at hlen
    · exact ⟨d0, drest, rfl⟩
  have hd0 := hprop d0 (List.mem_cons_self _ _)
  have hv : hasCol (d0 :: drest) "value" = true := by
    unfold hasCol
    rw [List.any_cons]
    simp [hd0.2]
  have hdt : hasCol (d0 :: drest) "dateTime" = true := by
    obtain ⟨q, hq⟩ := hd0.1
    unfold hasCol
    rw [List.any_cons]
    simp [hq]
  have hinsts : ∃ instants, (d0 :: drest).mapM
      (fun d => parseInstant (d.lookup "dateTime")) = .ok instants := by
    apply exceptMapM_total
    intro d hd
    obtain ⟨q, hq⟩ := (hprop d hd).1
    exact ⟨some q, by rw [hq]; rfl⟩
  obtain ⟨instants, hinsts⟩ := hinsts
  unfold fetchPoints
  simp only [hds]
  rw [if_neg (not_not_intro hv), if_neg (not_not_intro hdt)]
  simp only [hinsts]
  exact ⟨_, rfl⟩

theorem raise_for_status_ok {resp : HttpResponse}
    (hst : ¬ (400 ≤ resp.status ∧ resp.status < 600)) :
    raise_for_status resp = .ok () := by
  unfold raise_for_status
  rw [if_neg hst]

theorem fetch_ok_of_shape {resp : HttpResponse} {j : Json}
    (hb : resp.body = some j) (hj : bodyOK j = true)
    (hst : ¬ (400 ≤ resp.status ∧ resp.status < 600)) :
    ∃ out, fetch_usgs_iv resp = .ok out := by
  unfold fetch_usgs_iv
  rw [raise_for_status_ok hst, hb]
  rcases j with _ | _ | _ | _ | _ | fields <;> simp only [bodyOK] at hj <;>
    try exact (Bool.false_ne_true hj).elim
  rcases hv : fields.lookup "value" with _ | v <;> rw [hv] at hj
  · exact ⟨[], by simp [jsonGetD, hv, isFalsy]⟩
  · rcases v with _ | _ | _ | _ | _ | vfields <;> try simp only [] at hj
    all_goals try exact (Bool.false_ne_true hj).elim
    rcases hts : vfields.lookup "timeSeries" with _ | ts <;> rw [hts] at hj
    · exact ⟨[], by simp [jsonGetD, hv, hts, isFalsy]⟩
    · rcases ts with _ | _ | _ | _ | l | _ <;> try simp only [] at hj
      all_goals try exact (Bool.false_ne_true hj).elim
      rcases l with _ | ⟨ts0, rest⟩
      · exact ⟨[], by simp [jsonGetD, hv, hts, isFalsy]⟩
      · try simp only [] at hj
        rcases ts0 with _ | _ | _ | _ | _ | sfields <;> try simp only [] at hj
        all_goals try exact (Bool.false_ne_true hj).elim
        rcases hvals : sfields.lookup "values" with _ | vb <;> rw [hvals] at hj
        · exact (Bool.false_ne_true hj).elim
        · rcases vb with _ | _ | _ | _ | bl | _ <;> try simp only [] at hj
          all_goals try exact (Bool.false_ne_true hj).elim
          rcases bl with _ | ⟨b0, brest⟩ <;> try simp only [] at hj
          · exact (Bool.false_ne_true hj).elim
          · rcases b0 with _ | _ | _ | _ | _ | bfields <;> try simp only [] at hj
            all_goals try exact (Bool.false_ne_true hj).elim
            rcases hval2 : bfields.lookup "value" with _ | pv <;> rw [hval2] at hj
            · exact (Bool.false_ne_true hj).elim
            · rcases pv with _ | _ | _ | _ | pl | _ <;> try simp only [] at hj
              all_goals try exact (Bool.false_ne_true hj).elim
              rcases pl with _ | ⟨pp0, pprest⟩
              · exact (Bool.false_ne_true hj).elim
              · obtain ⟨out, hout⟩ := fetchPoints_ok hj
                refine ⟨out, ?_⟩
                simp [jsonGetD, jsonGet, index0, isFalsy, hv, hts, hvals, hval2, hout]

theorem fetch_empty_of_zero {resp : HttpResponse} {j : Json}
    (hb : resp.body = some j) (hj : bodyOK j = true)
    (hst : ¬ (400 ≤ resp.status ∧ resp.status < 600))
    (hz : zeroTimeSeries j = true) :
    fetch_usgs_iv resp = .ok [] := by
  unfold fetch_usgs_iv
  rw [raise_for_status_ok hst, hb]
  unfold zeroTimeSeries at hz
  rcases j with _ | _ | _ | _ | _ | fields <;> simp only [jsonGetD] at hz <;>
    try exact (Bool.false_ne_true hz).elim
  simp only [bodyOK] at hj
  rcases hv : fields.lookup "value" with _ | v <;> rw [hv] at hj <;>
    simp only [hv, Option.getD_some, Option.getD_none] at hz
  · simp [jsonGetD, hv, isFalsy]
  · rcases v with _ | _ | _ | _ | _ | vfields <;> try simp only [] at hj
    all_goals try exact (Bool.false_ne_true hj).elim
    simp only [jsonGetD] at hz
    rcases hts : vfields.lookup "timeSeries" with _ | ts <;> rw [hts] at hj <;>
      simp only [hts, Option.getD_some, Option.getD_none] at hz
    · simp [jsonGetD, hv, hts, isFalsy]
    · rcases ts with _ | _ | _ | _ | l | _ <;> try simp only [] at hj
      all_goals try exact (Bool.false_ne_true hj).elim
      rcases l with _ | ⟨ts0, rest⟩
      · simp [jsonGetD, hv, hts, isFalsy]
      · simp only [isFalsy, List.isEmpty_cons] at hz
        exact (Bool.false_ne_true hz).elim

/-- C5 (amended): over shape-conforming responses, the fetcher raises
exactly when the status is 4xx/5xx (`raise_for_status` raises only for
400-599, not for every non-2xx status) or the body is malformed JSON;
and a non-error response whose body holds zero time series (including a
missing `value` or `timeSeries` member) yields the empty sequence, not
an error. -/
theorem c5_fetch_errors (resp : HttpResponse) (hsh : ShapeOK resp = true) :
    (isError (fetch_usgs_iv resp) = true ↔
      (400 ≤ resp.status ∧ resp.status < 600) ∨ resp.body = none) ∧
    (∀ j, resp.body = some j → ¬ (400 ≤ resp.status ∧ resp.status < 600) →
      zeroTimeSeries j = true → fetch_usgs_iv resp = .ok []) := by
  constructor
  · constructor
    · intro herr
      by_contra hcon
      rw [not_or] at hcon
      obtain ⟨hst, hbn⟩ := hcon
      rcases hbody : resp.body with _ | j
      · exact hbn hbody
      · have hj : bodyOK j = true := by
          unfold ShapeOK at hsh
          rw [hbody] at hsh
          exact hsh
        obtain ⟨out, hout⟩ := fetch_ok_of_shape hbody hj hst
        rw [hout] at herr
        cases herr
    · intro hcond
      by_cases hst : 400 ≤ resp.status ∧ resp.status < 600
      · unfold fetch_usgs_iv
        rw [show raise_for_status resp = .error .httpError from by
          unfold raise_for_status
          rw [if_pos hst]]
        rfl
      · rcases hcond with h4 | hbn
        · exact absurd h4 hst
        · unfold fetch_usgs_iv
          rw [raise_for_status_ok hst, hbn]
          rfl
  · intro j hb hst hz
    have hj : bodyOK j = true := by
      unfold ShapeOK at hsh
      rw [hb] at hsh
      exact hsh
    exact fetch_empty_of_zero hb hj hst hz

/-- C5 counterexample: the claim ties the error to any non-2xx status,
but a final status of 302 with a well-formed empty JSON object body
passes `raise_for_status` (which raises only for 400-599) and returns
an empty series instead of raising. -/
theorem c5_counterexample :
    ¬ ∀ resp : HttpResponse, ShapeOK resp = true →
      (isError (fetch_usgs_iv resp) = true ↔
        (¬ (200 ≤ resp.status ∧ resp.status < 300)) ∨ resp.body = none) := by
  intro hall
  have h := hall ⟨302, some (.obj [])⟩ rfl
  have h2 := h.mpr (Or.inl (by norm_num))
  rw [show fetch_usgs_iv ⟨302, some (.obj [])⟩ = .ok [] from rfl] at h2
  cases h2

/-! ### Concrete witnesses and counterexamples

`Rat` arithmetic is locally unsealed so that `decide` can evaluate the
pipeline on concrete inputs. -/

section

attribute [local semireducible] Rat.mul Rat.inv Rat.add Rat.sub

/-- C1 witness: the series 10, 14, 16 ft at hours 0, 1, 2 first meets
the 15 ft reference at hour 2, and hour 2 is minimal among qualifying
buckets. -/
theorem c1_leftmost_crossing_witness :
    eventStep [(0, 10), (3600, 14), (7200, 16)] = .valid ⟨2, 2⟩ ∧
    ((∃ b ∈ resample1H [(0, 10), (3600, 14), (7200, 16)],
        b.1 = (⟨2, 2⟩ : RawFeature).cross_time ∧
        ∃ v, b.2 = some v ∧ REFERENCE_STAGE ≤ v) ∧
      ∀ b ∈ resample1H [(0, 10), (3600, 14), (7200, 16)],
        ∀ v, b.2 = some v → REFERENCE_STAGE ≤ v →
          (⟨2, 2⟩ : RawFeature).cross_time ≤ b.1) :=
  ⟨by decide, (c1_leftmost_crossing [(0, 10), (3600, 14), (7200, 16)]).1 ⟨2, 2⟩ (by decide)⟩

/-- C2 witness: a run collecting one feature (rate 2 ft/hr at hour 2)
and that feature's rate is positive. -/
theorem c2_rate_positive_witness :
    (⟨⟨2020, 1, 1⟩, 34, 2, 2⟩ : EventFeature) ∈
      (mainLoop (fun _ _ => .ok [(0, 10), (3600, 14), (7200, 16)])
        [⟨34, ⟨2020, 1, 1⟩⟩]).results ∧
    0 < (⟨⟨2020, 1, 1⟩, 34, 2, 2⟩ : EventFeature).rate_of_rise_per_hr :=
  ⟨by decide,
   c2_rate_positive (fun _ _ => .ok [(0, 10), (3600, 14), (7200, 16)])
     [⟨34, ⟨2020, 1, 1⟩⟩] ⟨⟨2020, 1, 1⟩, 34, 2, 2⟩ (by decide)⟩

/-- C3 witness: a well-formed row parses and a row with no numeric token
is dropped silently. -/
theorem c3_silent_drop_witness :
    parse_crest_csv
        [⟨some "34.70 ft".toList, some "on 02-01-1936".toList⟩,
         ⟨some "no height".toList, some "on 01-01-2001".toList⟩] =
      .ok (([⟨some "34.70 ft".toList, some "on 02-01-1936".toList⟩,
         ⟨some "no height".toList, some "on 01-01-2001".toList⟩] :
           List CsvRow).filterMap rowRecord?) :=
  c3_silent_drop _ (by decide)

/-- C4 witness: a fetcher raising a transport error yields one skip and
the loop over just that record continues (trivially) past it. -/
theorem c4_partial_failure_isolation_witness :
    stepState (fun _ _ => .error .network) ⟨[], 0, 0⟩ ⟨34, ⟨2020, 1, 1⟩⟩ =
      skipOne ⟨[], 0, 0⟩ ∧
    mainLoop (fun _ _ => .error .network) ([] ++ ⟨34, ⟨2020, 1, 1⟩⟩ :: []) =
      List.foldl (stepState (fun _ _ => .error .network))
        (stepState (fun _ _ => .error .network)
          (List.foldl (stepState (fun _ _ => .error .network)) initialState [])
          ⟨34, ⟨2020, 1, 1⟩⟩) [] :=
  let h := c4_partial_failure_isolation (fun _ _ => .error .network)
    ⟨34, ⟨2020, 1, 1⟩⟩ ⟨[], 0, 0⟩ .network rfl
  ⟨h.1, h.2 [] []⟩

/-- C5 witness: a 200-status empty-object body is no error, and holds
zero time series, so the fetch returns the empty sequence. -/
theorem c5_fetch_errors_witness :
    (isError (fetch_usgs_iv ⟨200, some (.obj [])⟩) = true ↔
      (400 ≤ (200 : ℕ) ∧ (200 : ℕ) < 600) ∨
        (some (Json.obj []) : Option Json) = none) ∧
    fetch_usgs_iv ⟨200, some (.obj [])⟩ = .ok [] :=
  ⟨(c5_fetch_errors ⟨200, some (.obj [])⟩ rfl).1,
   (c5_fetch_errors ⟨200, some (.obj [])⟩ rfl).2 (.obj []) rfl (by norm_num) rfl⟩

/-- C6 witness: three points on y = 2x + 5 give slope 2, intercept 5 and
r_squared 1. -/
theorem c6_perfect_line_witness :
    linregress [(0, 5), (1, 7), (2, 9)] = .ok ⟨some 2, some 5, 1⟩ :=
  c6_perfect_line 2 5 [(0, 5), (1, 7), (2, 9)] (by decide)
    ⟨(0, 5), by decide, (1, 7), by decide, by decide⟩ (by decide)

/-- C6 counterexample: two points on the horizontal line y = 0·x + 5
(two distinct x values) get r_squared 0, not 1, because scipy sets
r = 0 when the y variance vanishes. -/
theorem c6_counterexample :
    ¬ ∀ (a b : ℚ) (pts : List (ℚ × ℚ)),
        (∀ p ∈ pts, p.2 = a * p.1 + b) →
        (∃ p ∈ pts, ∃ q ∈ pts, p.1 ≠ q.1) →
        linregress pts = .ok ⟨some a, some b, 1⟩ := by
  intro hall
  have h := hall 0 5 [(0, 5), (1, 5)] (by decide)
    ⟨(0, 5), by decide, (1, 5), by decide, by decide⟩
  rw [show linregress [(0, 5), (1, 5)] = .ok ⟨some 0, some 5, 0⟩ from by decide] at h
  exact absurd h (by decide)

/-- C7 witness: one 1936 record is skipped for eligibility, zero valid
events, and the run reports nothing to analyze with no regression and
no plot. -/
theorem c7_nothing_to_analyze_witness :
    main [⟨some "34.70 ft".toList, some "on 02-01-1936".toList⟩] (fun _ _ => .ok []) =
      .ok ⟨1, 0, 1, true, none, false⟩ ∧
    ((⟨1, 0, 1, true, none, false⟩ : MainOutput).nothing_to_do = true ∧
      (⟨1, 0, 1, true, none, false⟩ : MainOutput).regression = none ∧
      (⟨1, 0, 1, true, none, false⟩ : MainOutput).plotted = false) :=
  ⟨by decide,
   c7_nothing_to_analyze [⟨some "34.70 ft".toList, some "on 02-01-1936".toList⟩]
     (fun _ _ => .ok []) ⟨1, 0, 1, true, none, false⟩ (by decide) rfl⟩

/-- C8 witness: a 1936 record is skipped identically under two different
fetchers (no retrieval consulted). -/
theorem c8_eligibility_skip_witness :
    stepState (fun _ _ => .ok []) ⟨[], 0, 0⟩ ⟨347/10, ⟨1936, 2, 1⟩⟩ =
      skipOne ⟨[], 0, 0⟩ ∧
    stepState (fun _ _ => .ok []) ⟨[], 0, 0⟩ ⟨347/10, ⟨1936, 2, 1⟩⟩ =
      stepState (fun _ _ => .error .network) ⟨[], 0, 0⟩ ⟨347/10, ⟨1936, 2, 1⟩⟩ :=
  let h := c8_eligibility_skip ⟨347/10, ⟨1936, 2, 1⟩⟩ (by decide)
  ⟨h.1 _ _, h.2 _ _ _⟩

/-- C9 witness: the single parsed record has height 34.70 ≥ 0. -/
theorem c9_height_nonneg_witness :
    parse_crest_csv [⟨some "34.70 ft".toList, some "on 02-01-1936".toList⟩] =
      .ok [⟨347/10, ⟨1936, 2, 1⟩⟩] ∧
    0 ≤ (⟨347/10, ⟨1936, 2, 1⟩⟩ : CrestRecord).crest_height :=
  ⟨by decide,
   c9_height_nonneg [⟨some "34.70 ft".toList, some "on 02-01-1936".toList⟩]
     [⟨347/10, ⟨1936, 2, 1⟩⟩] (by decide) ⟨347/10, ⟨1936, 2, 1⟩⟩ (by decide)⟩

/-- C9 counterexample: a "0 ft" row survives parsing with height exactly
0, violating the strict `height > 0` invariant. -/
theorem c9_counterexample :
    ¬ ∀ (rows : List CsvRow) (recs : List CrestRecord),
        parse_crest_csv rows = .ok recs → ∀ rec ∈ recs, 0 < rec.crest_height := by
  intro hall
  have h := hall [⟨some "0 ft".toList, some "on 01-01-2000".toList⟩]
    [⟨0, ⟨2000, 1, 1⟩⟩] (by decide) ⟨0, ⟨2000, 1, 1⟩⟩ (by decide)
  exact lt_irrefl 0 h

/-- C10 witness: one parsed record, zero valid plus one skipped equals
one parsed. -/
theorem c10_tally_partition_witness :
    main [⟨some "34.70 ft".toList, some "on 02-01-1936".toList⟩] (fun _ _ => .ok []) =
      .ok ⟨1, 0, 1, true, none, false⟩ ∧
    (⟨1, 0, 1, true, none, false⟩ : MainOutput).valid_event_count +
        (⟨1, 0, 1, true, none, false⟩ : MainOutput).skipped_event_count =
      (⟨1, 0, 1, true, none, false⟩ : MainOutput).parsed_count :=
  ⟨by decide,
   c10_tally_partition [⟨some "34.70 ft".toList, some "on 02-01-1936".toList⟩]
     (fun _ _ => .ok []) ⟨1, 0, 1, true, none, false⟩ (by decide)⟩

end

end BogueChitto
